import Mathlib

/-!
Verification of the crop-health analysis pipeline
(`ml_models/crop_health_model.py`, class `CropHealthAnalyzer`).

The numeric pipeline is embedded shallowly: Python/numpy floats become
exact rationals (`ℚ`), numpy reductions become list folds, raised numpy
exceptions become `Except` errors, and the external collaborators
(satellite-imagery fetch, the pretrained scoring/classifier models, the
absent `estimate_severity` helper) become explicit function parameters,
as the specification describes them as injected boundaries.
-/

namespace CropHealth

/-- The literal `1e-8` used by `preprocess_satellite_image` both in the
NDVI denominator and in the min-max normalization denominator. -/
def eps : ℚ := 1 / 100000000

/-- Errors raised by the numpy code paths of the source.
`invalidInput` models the `IndexError` raised by `bands[:, :, 3]` when
fewer than 4 bands are present (the taxonomy of the specification calls
this `InvalidInputError`); `valueError` models the `ValueError` raised by
`np.min` on an empty array; `typeError` models the `TypeError` raised by
`np.polyfit` on an empty x-vector; `linAlgError` models the
`LinAlgError` raised from inside `np.polyfit` on a single observation
(see `np_polyfit_slope`). -/
inductive PyErr where
  | invalidInput : PyErr
  | valueError : PyErr
  | typeError : PyErr
  | linAlgError : PyErr
deriving DecidableEq, Repr

/-- A multi-band raster: `nbands` is the size of the band axis of the
numpy array, `pixels` lists the per-pixel band vectors (the height/width
geometry is irrelevant to every computation of the source, which only
reduces over all pixels), and `wf` records that a numpy 3-d array has a
uniform band axis. -/
structure Raster where
  nbands : ℕ
  pixels : List (List ℚ)
  wf : ∀ p ∈ pixels, p.length = nbands

/-- NDVI denominator `nir + red + 1e-8` (source line 34). -/
def ndviDenom (nir red : ℚ) : ℚ := nir + red + eps

/-- `ndvi = (nir - red) / (nir + red + 1e-8)` (source line 34). -/
def ndvi (nir red : ℚ) : ℚ := (nir - red) / ndviDenom nir red

/-- EVI denominator `nir + 6*red - 7.5*blue + 1` (source line 38).
Unlike the NDVI denominator it carries no epsilon, so it can be exactly
zero; the float code then divides by zero, producing a non-finite value,
which this rational embedding cannot represent (Lean division by zero
returns 0), so theorems about the normalized output carry the hypothesis
that no denominator vanishes. -/
def eviDenom (nir red blue : ℚ) : ℚ := nir + 6 * red - (15 / 2) * blue + 1

/-- `evi = 2.5 * ((nir - red) / (nir + 6*red - 7.5*blue + 1))` (source line 38). -/
def evi (nir red blue : ℚ) : ℚ := (5 / 2) * ((nir - red) / eviDenom nir red blue)

/-- Band extraction and per-pixel index computation (source lines 30-41):
`nir = bands[:, :, 3]`, `red = bands[:, :, 2]`, `blue = bands[:, :, 0]`,
then NDVI and EVI are stacked as the two components of each pixel. -/
def rawIndices (r : Raster) : List (ℚ × ℚ) :=
  r.pixels.map (fun p =>
    (ndvi (p.getD 3 0) (p.getD 2 0), evi (p.getD 3 0) (p.getD 2 0) (p.getD 0 0)))

/-- All values of the stacked two-channel array, as a flat list (the
set over which `np.min(indices)` / `np.max(indices)` reduce). -/
def stackVals (idx : List (ℚ × ℚ)) : List ℚ :=
  idx.foldr (fun p acc => p.1 :: p.2 :: acc) []

/-- `np.min` over a list: the fold numpy performs (0 on the empty list,
where numpy would raise; callers guard emptiness). -/
def listMin : List ℚ → ℚ
  | [] => 0
  | x :: xs => xs.foldl min x

/-- `np.max` over a list. -/
def listMax : List ℚ → ℚ
  | [] => 0
  | x :: xs => xs.foldl max x

/-- The normalization map `(v - min) / (max - min + 1e-8)` applied by
source line 44 with the global minimum `m` and maximum `M`. -/
def normVal (m M v : ℚ) : ℚ := (v - m) / (M - m + eps)

/-- `indices = (indices - np.min(indices)) / (np.max(indices) - np.min(indices) + 1e-8)`
(source line 44): one global min and max over BOTH stacked channels. -/
def normalizeJoint (idx : List (ℚ × ℚ)) : List (ℚ × ℚ) :=
  let m := listMin (stackVals idx)
  let M := listMax (stackVals idx)
  idx.map (fun p => (normVal m M p.1, normVal m M p.2))

/-- `preprocess_satellite_image` (source lines 21-46): band extraction
fails with an index error when the band axis has fewer than 4 entries;
`np.min` fails with a value error on an empty (zero-pixel) raster;
otherwise the stacked NDVI/EVI channels are jointly min-max normalized. -/
def preprocess_satellite_image (r : Raster) : Except PyErr (List (ℚ × ℚ)) :=
  if r.nbands < 4 then .error .invalidInput
  else if r.pixels = [] then .error .valueError
  else .ok (normalizeJoint (rawIndices r))

/-- Decidable equality on `Except`, used to evaluate the embedded
pipeline on concrete inputs. -/
instance {ε α : Type} [DecidableEq ε] [DecidableEq α] : DecidableEq (Except ε α) :=
  fun a b =>
    match a, b with
    | .ok x, .ok y =>
      if h : x = y then .isTrue (by rw [h]) else .isFalse (by simp [h])
    | .error x, .error y =>
      if h : x = y then .isTrue (by rw [h]) else .isFalse (by simp [h])
    | .ok _, .error _ => .isFalse (by simp)
    | .error _, .ok _ => .isFalse (by simp)

/-- `np.mean` over a list (`sum / length`; 0-length input yields the
junk value 0 where numpy yields NaN with a warning — callers that reach
this case are modeled as erroring at the subsequent `np.polyfit`). -/
def listMean (l : List ℚ) : ℚ := l.sum / l.length

/-- Sum of the x-values `0, 1, ..., n-1` used by
`np.polyfit(range(len(scores)), scores, 1)`. -/
def Sx (n : ℕ) : ℚ := ∑ i ∈ Finset.range n, (i : ℚ)

/-- Sum of the squared x-values `0, 1, ..., n-1`. -/
def Sxx (n : ℕ) : ℚ := ∑ i ∈ Finset.range n, (i : ℚ) ^ 2

/-- Sum of the scores. -/
def Sy (ys : List ℚ) : ℚ := ∑ i ∈ Finset.range ys.length, ys.getD i 0

/-- Sum of index-weighted scores. -/
def Sxy (ys : List ℚ) : ℚ := ∑ i ∈ Finset.range ys.length, (i : ℚ) * ys.getD i 0

/-- Determinant of the normal equations of the degree-1 fit. -/
def lsqDenom (n : ℕ) : ℚ := n * Sxx n - (Sx n) ^ 2

/-- The value `np.polyfit(range(len(scores)), scores, 1)[0]` computes
when it succeeds (source line 87), in closed form: the normal-equation
slope.  For `n ≥ 2` this is the unique least-squares slope (proved
below).  For `n ≤ 1` this closed form is never the program's result —
`np_polyfit_slope` models those lengths as the numpy errors they raise —
so the value the rational division-by-zero convention gives here is
unused. -/
def polyfitSlope (ys : List ℚ) : ℚ :=
  ((ys.length : ℚ) * Sxy ys - Sx ys.length * Sy ys) / lsqDenom ys.length

/-- The intercept of the degree-1 least-squares fit (`np.polyfit(...)[1]`). -/
def cFit (ys : List ℚ) : ℚ := (Sy ys - polyfitSlope ys * Sx ys.length) / (ys.length : ℚ)

/-- The call `np.polyfit(range(len(scores)), scores, 1)[0]` of source
line 87, with its failure behavior.  On an empty x-vector polyfit raises
`TypeError` (its explicit emptiness check).  On a single observation it
does not return a result: polyfit rescales the Vandermonde columns by
their euclidean norms before calling `lstsq`, and for `x = [0]` the
x-column is all zeros, so the rescale divides 0 by 0 and injects NaN
into the design matrix; LAPACK's SVD then fails and `lstsq` raises
`LinAlgError` (builds whose `lstsq` instead returns NaN coefficients
yield a NaN slope — in neither case a finite report, and this embedding
adopts the error behavior).  For two or more observations the columns
are nonzero and the result is the exact normal-equation slope. -/
def np_polyfit_slope (ys : List ℚ) : Except PyErr ℚ :=
  if ys.length = 0 then .error .typeError
  else if ys.length = 1 then .error .linAlgError
  else .ok (polyfitSlope ys)

/-- Sum of squared errors of the affine model `x ↦ a*x + b` against the
scores at x-values `0, ..., n-1`: the objective `np.polyfit` minimizes. -/
def SSE (ys : List ℚ) (a b : ℚ) : ℚ :=
  ∑ i ∈ Finset.range ys.length, (ys.getD i 0 - (a * (i : ℚ) + b)) ^ 2

/-- An anomaly record appended by source lines 95-99. -/
structure Anomaly where
  date : String
  score : ℚ
  severity : String
deriving DecidableEq, Repr

/-- The analysis dictionary returned by `analyze_health_trends`
(source lines 101-106). -/
structure TrendReport where
  mean_health : ℚ
  trend : String
  trend_rate : ℚ
  anomalies : List Anomaly

/-- `np.std(scores)`: the population standard deviation (numpy default
`ddof=0`), i.e. the square root of the mean of squared deviations.  The
scores are rational; the root lives in `ℝ`. -/
noncomputable def np_std (scores : List ℚ) : ℝ :=
  Real.sqrt ((listMean (scores.map (fun s => (s - listMean scores) ^ 2)) : ℚ) : ℝ)

/-- `threshold = mean_health - 2 * np.std(scores)` (source line 91). -/
noncomputable def anomaly_threshold (scores : List ℚ) : ℝ :=
  ((listMean scores : ℚ) : ℝ) - 2 * np_std scores

/-- The anomaly loop of source lines 93-99: `for i, score in
enumerate(scores)`, appending a record whenever `score < threshold`,
with severity `high` when `score < threshold * 0.8` and `medium`
otherwise.  Indexing `dates[i]` is modeled with a default (the source
would raise `IndexError` when `dates` is shorter than `scores`;
theorems touching dates therefore assume `scores.length ≤ dates.length`). -/
noncomputable def anomaliesOf (scores : List ℚ) (dates : List String) : List Anomaly :=
  (List.range scores.length).filterMap (fun i =>
    let s := scores.getD i 0
    if (s : ℝ) < anomaly_threshold scores then
      some { date := dates.getD i (""), score := s,
             severity := if (s : ℝ) < anomaly_threshold scores * (4 / 5) then "high" else "medium" }
    else none)

/-- `analyze_health_trends(health_scores, dates)` (source lines 81-106).
There is no explicit length validation in the source: `np.mean` of an
empty list only warns (NaN), and then the `np.polyfit` call of line 87
fails — with `TypeError` on the empty sequence and with `LinAlgError`
on a single observation (see `np_polyfit_slope`).  With two or more
observations nothing raises and the report is built. -/
noncomputable def analyze_health_trends (health_scores : List ℚ) (dates : List String) :
    Except PyErr TrendReport :=
  match np_polyfit_slope health_scores with
  | .error e => .error e
  | .ok trend => .ok
    { mean_health := listMean health_scores,
      trend := if 0 < trend then "improving" else "declining",
      trend_rate := trend,
      anomalies := anomaliesOf health_scores dates }

/-- A recommendation dictionary (source lines 113-135). -/
structure Recommendation where
  priority : String
  type : String
  message : String
  action : String
deriving DecidableEq, Repr

/-- The irrigation recommendation of source lines 113-118. -/
def irrigationRec : Recommendation :=
  { priority := "high", type := "irrigation",
    message := "Critical: Low vegetation health detected. Immediate irrigation recommended.",
    action := "Check soil moisture and irrigate within 24 hours" }

/-- The inspection recommendation of source lines 121-126. -/
def inspectionRec : Recommendation :=
  { priority := "medium", type := "inspection",
    message := "Declining crop health trend detected.",
    action := "Inspect field for pest/disease signs" }

/-- The intervention recommendation of source lines 130-135, whose
message interpolates the anomaly date. -/
def interventionRec (date : String) : Recommendation :=
  { priority := "high", type := "intervention",
    message := "Severe health drop detected on " ++ date,
    action := "Investigate affected area immediately" }

/-- `generate_recommendations(analysis)` (source lines 108-137): start
from the empty list, append the irrigation recommendation when
`mean_health < 0.5`, append the inspection recommendation when the trend
is declining with `abs(trend_rate) > 0.1`, then loop over the anomalies
appending an intervention recommendation for each high-severity one. -/
def generate_recommendations (analysis : TrendReport) : List Recommendation :=
  let recs : List Recommendation := []
  let recs := if analysis.mean_health < 1 / 2 then recs ++ [irrigationRec] else recs
  let recs :=
    if analysis.trend = "declining" ∧ 1 / 10 < |analysis.trend_rate| then
      recs ++ [inspectionRec]
    else recs
  analysis.anomalies.foldl
    (fun acc a => if a.severity = "high" then acc ++ [interventionRec a.date] else acc) recs

/-- The result dictionary of `analyze_field_health` (source lines 75-79). -/
structure FieldResult where
  health_scores : List ℚ
  analysis : TrendReport
  recommendations : List Recommendation

/-- The preprocessing loop of source lines 54-57: preprocess each image
in order, collecting results; an exception from any single image
propagates (there is no try/except in the source). -/
def preprocessAll : List Raster → Except PyErr (List (List (ℚ × ℚ)))
  | [] => .ok []
  | r :: rs =>
    match preprocess_satellite_image r with
    | .error e => .error e
    | .ok p =>
      match preprocessAll rs with
      | .error e => .error e
      | .ok ps => .ok (p :: ps)

/-- `analyze_field_health(field_boundary, date_range)` (source lines
48-79).  The satellite-imagery fetch and the pretrained model are the
external collaborators of the specification, so the fetched imagery and
the scoring function `self.model.predict` are parameters; the body is
the source's pipeline: preprocess every image (errors propagate), score
every preprocessed image, analyze trends on the raw predictions, and
generate recommendations.  No validation or clamping is applied to the
scores at any point. -/
noncomputable def analyze_field_health (imagery : List Raster)
    (scorer : List (ℚ × ℚ) → ℚ) (date_range : List String) :
    Except PyErr FieldResult :=
  match preprocessAll imagery with
  | .error e => .error e
  | .ok processed =>
    let predictions := processed.map scorer
    match analyze_health_trends predictions date_range with
    | .error e => .error e
    | .ok analysis =>
      .ok { health_scores := predictions, analysis := analysis,
            recommendations := generate_recommendations analysis }

/-- The fixed label set of `detect_crop_disease` (source lines 153-156). -/
def disease_classes : List String :=
  ["healthy", "bacterial_blight", "brown_spot", "leaf_blast", "tungro", "sheath_blight"]

/-- `np.argmax`: the first index attaining the maximum (numpy returns
the earliest maximum on ties).  The empty list maps to 0, where numpy
would raise; callers supply non-empty probability vectors. -/
def np_argmax : List ℚ → ℕ
  | [] => 0
  | x :: xs => if listMax (x :: xs) ≤ x then 0 else np_argmax xs + 1

/-- The result dictionary of `detect_crop_disease` (source lines
162-175): the healthy branch carries no severity and no treatment key,
modeled as `none` fields. -/
structure DiseaseResult where
  disease_detected : Bool
  disease : String
  confidence : ℚ
  severity : Option ℚ
  treatment : Option (List (String × String))
deriving DecidableEq, Repr

/-- The static treatment table of `get_treatment_recommendation`
(source lines 179-193): entries only for bacterial blight and brown
spot, each a category-to-guidance mapping. -/
def treatments : List (String × List (String × String)) :=
  [("bacterial_blight",
     [("chemical", "Streptomycin sulfate 90% + Tetracycline hydrochloride 10%"),
      ("dosage", "15g per 10 liters of water"),
      ("organic", "Neem oil spray (3-4ml/liter)"),
      ("cultural", "Remove infected plants, improve drainage")]),
   ("brown_spot",
     [("chemical", "Mancozeb 75% WP"),
      ("dosage", "2g per liter of water"),
      ("organic", "Trichoderma viride"),
      ("cultural", "Use resistant varieties, balanced fertilization")])]

/-- `get_treatment_recommendation(disease)` (source lines 177-195):
`treatments.get(disease, {})` — dictionary lookup with the empty plan as
default, never an error. -/
def get_treatment_recommendation (disease : String) : List (String × String) :=
  (treatments.lookup disease).getD []

/-- `detect_crop_disease(image_path)` (source lines 139-175).  The
external disease classifier is an injected boundary, so its probability
vector `predictions` is a parameter.  `estimate_severity` — Modelled
from the spec: the source calls `self.estimate_severity`, which is
defined nowhere in the repository; specification 4.5 describes it as an
implementation-defined deterministic severity metric of the image, so it
is taken here as an injected function of the predicted class index (the
image argument is opaque to every claim). -/
def detect_crop_disease (predictions : List ℚ) (estimate_severity : ℕ → ℚ) : DiseaseResult :=
  let disease_idx := np_argmax predictions
  let confidence := predictions.getD disease_idx 0
  if disease_idx = 0 then
    { disease_detected := false, disease := "None", confidence := confidence,
      severity := none, treatment := none }
  else
    { disease_detected := true, disease := disease_classes.getD disease_idx (""),
      confidence := confidence,
      severity := some (estimate_severity disease_idx),
      treatment := some (get_treatment_recommendation (disease_classes.getD disease_idx (""))) }

/-- Boolean success test on `Except` (used to state that the trend
analyzer succeeds exactly on non-empty inputs). -/
def exceptOk {ε α : Type} : Except ε α → Bool
  | .ok _ => true
  | .error _ => false

/-- A 4-band two-pixel raster: pixel bands are listed blue, green, red,
nir.  Its NDVI values are 0 and 1/(1+ε) while its EVI values are 0 and
5/4, so the joint normalization is dominated by the EVI maximum. -/
def rasterB : Raster := ⟨4, [[0, 0, 1, 1], [0, 0, 0, 1]], by decide⟩

/-- A 4-band one-pixel raster whose single pixel has equal nir and red,
so both index values are 0 and the stacked array is constant. -/
def rasterA : Raster := ⟨4, [[0, 0, 1, 1]], by decide⟩

/-- The specification's population standard deviation, written from the
words of the spec (square root of the sum of squared deviations from the
mean, divided by the count): the quantity `np.std` computes with its
default `ddof=0`. -/
noncomputable def population_standard_deviation (l : List ℚ) : ℝ :=
  Real.sqrt ((((l.map (fun s => (s - listMean l) ^ 2)).sum / (l.length : ℚ)) : ℚ) : ℝ)

section MinMaxLemmas

lemma foldl_min_le (xs : List ℚ) (a : ℚ) : xs.foldl min a ≤ a := by
  induction xs generalizing a with
  | nil => simp
  | cons x xs ih => exact le_trans (ih (min a x)) (min_le_left a x)

lemma foldl_min_le_mem (xs : List ℚ) (a y : ℚ) (hy : y ∈ xs) : xs.foldl min a ≤ y := by
  induction xs generalizing a with
  | nil => cases hy
  | cons x xs ih =>
    rcases List.mem_cons.mp hy with h | h
    · subst h
      exact le_trans (foldl_min_le xs (min a y)) (min_le_right a y)
    · exact ih (min a x) h

lemma foldl_min_mem (xs : List ℚ) (a : ℚ) : xs.foldl min a = a ∨ xs.foldl min a ∈ xs := by
  induction xs generalizing a with
  | nil => exact Or.inl rfl
  | cons x xs ih =>
    rcases ih (min a x) with h | h
    · rcases min_choice a x with hc | hc
      · exact Or.inl (by rw [List.foldl, h, hc])
      · exact Or.inr (by rw [List.foldl, h, hc]; exact List.mem_cons_self x xs)
    · exact Or.inr (List.mem_cons_of_mem x h)

lemma le_foldl_max (xs : List ℚ) (a : ℚ) : a ≤ xs.foldl max a := by
  induction xs generalizing a with
  | nil => simp
  | cons x xs ih => exact le_trans (le_max_left a x) (ih (max a x))

lemma mem_le_foldl_max (xs : List ℚ) (a y : ℚ) (hy : y ∈ xs) : y ≤ xs.foldl max a := by
  induction xs generalizing a with
  | nil => cases hy
  | cons x xs ih =>
    rcases List.mem_cons.mp hy with h | h
    · subst h
      exact le_trans (le_max_right a y) (le_foldl_max xs (max a y))
    · exact ih (max a x) h

lemma foldl_max_mem (xs : List ℚ) (a : ℚ) : xs.foldl max a = a ∨ xs.foldl max a ∈ xs := by
  induction xs generalizing a with
  | nil => exact Or.inl rfl
  | cons x xs ih =>
    rcases ih (max a x) with h | h
    · rcases max_choice a x with hc | hc
      · exact Or.inl (by rw [List.foldl, h, hc])
      · exact Or.inr (by rw [List.foldl, h, hc]; exact List.mem_cons_self x xs)
    · exact Or.inr (List.mem_cons_of_mem x h)

lemma listMin_le_of_mem {l : List ℚ} {y : ℚ} (hy : y ∈ l) : listMin l ≤ y := by
  cases l with
  | nil => cases hy
  | cons x xs =>
    rcases List.mem_cons.mp hy with h | h
    · subst h; exact foldl_min_le xs y
    · exact foldl_min_le_mem xs x y h

lemma le_listMax_of_mem {l : List ℚ} {y : ℚ} (hy : y ∈ l) : y ≤ listMax l := by
  cases l with
  | nil => cases hy
  | cons x xs =>
    rcases List.mem_cons.mp hy with h | h
    · subst h; exact le_foldl_max xs y
    · exact mem_le_foldl_max xs x y h

lemma listMin_mem {l : List ℚ} (h : l ≠ []) : listMin l ∈ l := by
  cases l with
  | nil => exact absurd rfl h
  | cons x xs =>
    rcases foldl_min_mem xs x with hc | hc
    · rw [listMin, hc]; exact List.mem_cons_self x xs
    · exact List.mem_cons_of_mem x hc

lemma listMax_mem {l : List ℚ} (h : l ≠ []) : listMax l ∈ l := by
  cases l with
  | nil => exact absurd rfl h
  | cons x xs =>
    rcases foldl_max_mem xs x with hc | hc
    · rw [listMax, hc]; exact List.mem_cons_self x xs
    · exact List.mem_cons_of_mem x hc

lemma listMin_le_listMax {l : List ℚ} (h : l ≠ []) : listMin l ≤ listMax l :=
  listMin_le_of_mem (listMax_mem h)

lemma foldl_min_map (f : ℚ → ℚ) (hf : ∀ a b, f (min a b) = min (f a) (f b))
    (xs : List ℚ) (a : ℚ) : (xs.map f).foldl min (f a) = f (xs.foldl min a) := by
  induction xs generalizing a with
  | nil => rfl
  | cons x xs ih =>
    show (xs.map f).foldl min (min (f a) (f x)) = f ((x :: xs).foldl min a)
    rw [← hf a x, ih (min a x)]
    rfl

lemma foldl_max_map (f : ℚ → ℚ) (hf : ∀ a b, f (max a b) = max (f a) (f b))
    (xs : List ℚ) (a : ℚ) : (xs.map f).foldl max (f a) = f (xs.foldl max a) := by
  induction xs generalizing a with
  | nil => rfl
  | cons x xs ih =>
    show (xs.map f).foldl max (max (f a) (f x)) = f ((x :: xs).foldl max a)
    rw [← hf a x, ih (max a x)]
    rfl

lemma listMin_map (f : ℚ → ℚ) (hf : ∀ a b, f (min a b) = min (f a) (f b))
    {l : List ℚ} (hl : l ≠ []) : listMin (l.map f) = f (listMin l) := by
  cases l with
  | nil => exact absurd rfl hl
  | cons x xs => exact foldl_min_map f hf xs x

lemma listMax_map (f : ℚ → ℚ) (hf : ∀ a b, f (max a b) = max (f a) (f b))
    {l : List ℚ} (hl : l ≠ []) : listMax (l.map f) = f (listMax l) := by
  cases l with
  | nil => exact absurd rfl hl
  | cons x xs => exact foldl_max_map f hf xs x

end MinMaxLemmas

section NormalizationLemmas

lemma eps_pos : 0 < eps := by norm_num [eps]

lemma normDenom_pos {m M : ℚ} (h : m ≤ M) : 0 < M - m + eps :=
  add_pos_of_nonneg_of_pos (sub_nonneg.mpr h) eps_pos

lemma normVal_min {m M : ℚ} (h : m ≤ M) (a b : ℚ) :
    normVal m M (min a b) = min (normVal m M a) (normVal m M b) := by
  unfold normVal
  rw [← min_sub_sub_right a b m, min_div_div_right (normDenom_pos h).le]

lemma normVal_max {m M : ℚ} (h : m ≤ M) (a b : ℚ) :
    normVal m M (max a b) = max (normVal m M a) (normVal m M b) := by
  unfold normVal
  rw [← max_sub_sub_right a b m, max_div_div_right (normDenom_pos h).le]

lemma stackVals_map (f : ℚ → ℚ) (idx : List (ℚ × ℚ)) :
    stackVals (idx.map (fun p => (f p.1, f p.2))) = (stackVals idx).map f := by
  induction idx with
  | nil => rfl
  | cons p idx ih => simp [stackVals, List.foldr] at ih ⊢; exact ih

lemma stackVals_ne_nil {idx : List (ℚ × ℚ)} (h : idx ≠ []) : stackVals idx ≠ [] := by
  cases idx with
  | nil => exact absurd rfl h
  | cons p idx => simp [stackVals]

lemma stackVals_normalizeJoint (idx : List (ℚ × ℚ)) :
    stackVals (normalizeJoint idx) =
      (stackVals idx).map (normVal (listMin (stackVals idx)) (listMax (stackVals idx))) := by
  unfold normalizeJoint
  exact stackVals_map _ idx

end NormalizationLemmas

/-- Claim C1, counterexample: on `rasterB` the NDVI channel of the
output is non-constant, yet its maximum is below 9/10 — not 1 within any
floating tolerance — because the source normalizes with the min and max
taken jointly over both channels, not per channel. -/
theorem C1_counterexample :
    ∃ out, preprocess_satellite_image rasterB = Except.ok out ∧
      listMin (out.map Prod.fst) ≠ listMax (out.map Prod.fst) ∧
      listMax (out.map Prod.fst) < 9 / 10 := by
  have h : preprocess_satellite_image rasterB =
      Except.ok [(0, 0),
        (10000000000000000 / 12500000225000001, 125000000 / 125000001)] := by
    simp only [preprocess_satellite_image, rasterB, rawIndices, normalizeJoint,
      stackVals, listMin, listMax, normVal, ndvi, evi, ndviDenom, eviDenom, eps]
    norm_num [min_def, max_def, List.foldl, List.foldr]
    intro hcontra
    exact (List.cons_ne_nil _ _ hcontra).elim
  refine ⟨_, h, ?_, ?_⟩ <;>
    norm_num [listMin, listMax, List.foldl, min_def, max_def]

/-- Claim C1, amended: the min-max normalization of
`preprocess_satellite_image` is joint over both stacked channels.  For
every raster with at least 4 bands, at least one pixel, and no pixel at
which the NDVI or EVI denominator vanishes (so the float program
computes only finite index values — without this the real output
contains inf/NaN, see claim C4, and this rational embedding does not
model it), the global minimum over the normalized output is exactly 0
and the global maximum is `(M - m) / (M - m + ε)` for the global raw
extrema `m ≤ M` (which is 1 within tolerance only when `M - m`
dominates ε); when all raw index values of both channels coincide the
whole output is 0.  Per-channel minima and maxima are not normalized to
0 and 1. -/
theorem C1_amended (r : Raster) (h4 : 4 ≤ r.nbands) (hne : r.pixels ≠ [])
    (hfin : ∀ p ∈ r.pixels,
      ndviDenom (p.getD 3 0) (p.getD 2 0) ≠ 0 ∧
      eviDenom (p.getD 3 0) (p.getD 2 0) (p.getD 0 0) ≠ 0) :
    ∃ out, preprocess_satellite_image r = Except.ok out ∧
      listMin (stackVals out) = 0 ∧
      listMax (stackVals out) =
        (listMax (stackVals (rawIndices r)) - listMin (stackVals (rawIndices r))) /
          (listMax (stackVals (rawIndices r)) - listMin (stackVals (rawIndices r)) + eps) ∧
      (listMax (stackVals (rawIndices r)) = listMin (stackVals (rawIndices r)) →
        ∀ v ∈ stackVals out, v = 0) := by
  have hidx : rawIndices r ≠ [] := by
    unfold rawIndices
    simpa using hne
  have hv : stackVals (rawIndices r) ≠ [] := stackVals_ne_nil hidx
  set m := listMin (stackVals (rawIndices r)) with hm
  set M := listMax (stackVals (rawIndices r)) with hM
  have hmM : m ≤ M := listMin_le_listMax hv
  have hok : preprocess_satellite_image r = Except.ok (normalizeJoint (rawIndices r)) := by
    unfold preprocess_satellite_image
    rw [if_neg (by omega), if_neg hne]
  have hstack : stackVals (normalizeJoint (rawIndices r)) =
      (stackVals (rawIndices r)).map (normVal m M) := stackVals_normalizeJoint _
  refine ⟨normalizeJoint (rawIndices r), hok, ?_, ?_, ?_⟩
  · rw [hstack, listMin_map (normVal m M) (normVal_min hmM) hv]
    simp [normVal]
  · rw [hstack, listMax_map (normVal m M) (normVal_max hmM) hv]
    rfl
  · intro hconst v hv2
    rw [hstack] at hv2
    rcases List.mem_map.mp hv2 with ⟨u, hu, rfl⟩
    have h1 : m ≤ u := listMin_le_of_mem hu
    have h2 : u ≤ M := le_listMax_of_mem hu
    have : u = m := le_antisymm (hconst ▸ h2) h1
    simp [this, normVal]

/-- Witness for the amended claim C1 at the concrete raster `rasterB`,
whose NDVI and EVI denominators are all nonzero. -/
theorem C1_witness :
    4 ≤ rasterB.nbands ∧ rasterB.pixels ≠ [] ∧
      (∀ p ∈ rasterB.pixels,
        ndviDenom (p.getD 3 0) (p.getD 2 0) ≠ 0 ∧
        eviDenom (p.getD 3 0) (p.getD 2 0) (p.getD 0 0) ≠ 0) ∧
      (∃ out, preprocess_satellite_image rasterB = Except.ok out ∧
        listMin (stackVals out) = 0 ∧
        listMax (stackVals out) =
          (listMax (stackVals (rawIndices rasterB)) - listMin (stackVals (rawIndices rasterB))) /
            (listMax (stackVals (rawIndices rasterB)) - listMin (stackVals (rawIndices rasterB)) + eps) ∧
        (listMax (stackVals (rawIndices rasterB)) = listMin (stackVals (rawIndices rasterB)) →
          ∀ v ∈ stackVals out, v = 0)) := by
  have hfin : ∀ p ∈ rasterB.pixels,
      ndviDenom (p.getD 3 0) (p.getD 2 0) ≠ 0 ∧
      eviDenom (p.getD 3 0) (p.getD 2 0) (p.getD 0 0) ≠ 0 := by
    intro p hp
    simp only [rasterB, List.mem_cons, List.not_mem_nil, or_false] at hp
    rcases hp with rfl | rfl <;>
      exact ⟨by norm_num [ndviDenom, eps], by norm_num [eviDenom]⟩
  exact ⟨by decide, by decide, hfin, C1_amended rasterB (by decide) (by decide) hfin⟩

/-- Claim C2, confirmed: `preprocess_satellite_image` fails with the
invalid-input error (the out-of-bounds band access of `bands[:, :, 3]`)
exactly when the raster has fewer than 4 bands; with 4 or more bands
that error is never produced (an empty raster fails later, at `np.min`,
with a different error). -/
theorem C2_theorem (r : Raster) :
    preprocess_satellite_image r = Except.error PyErr.invalidInput ↔ r.nbands < 4 := by
  unfold preprocess_satellite_image
  by_cases h : r.nbands < 4
  · simp [h]
  · by_cases hp : r.pixels = [] <;> simp [h, hp]

section LeastSquaresLemmas

lemma Sx_mul_two (n : ℕ) : Sx n * 2 = (n : ℚ) ^ 2 - n := by
  induction n with
  | zero => simp [Sx]
  | succ n ih =>
    rw [Sx, Finset.sum_range_succ, ← Sx]
    push_cast
    linear_combination ih

lemma Sxx_mul_six (n : ℕ) : Sxx n * 6 = 2 * (n : ℚ) ^ 3 - 3 * (n : ℚ) ^ 2 + n := by
  induction n with
  | zero => simp [Sxx]
  | succ n ih =>
    rw [Sxx, Finset.sum_range_succ, ← Sxx]
    push_cast
    linear_combination ih

lemma lsqDenom_mul_twelve (n : ℕ) :
    lsqDenom n * 12 = (n : ℚ) ^ 2 * ((n : ℚ) ^ 2 - 1) := by
  have h2 := Sxx_mul_six n
  have h3 : (Sx n) ^ 2 * 4 = ((n : ℚ) ^ 2 - (n : ℚ)) ^ 2 := by
    rw [← Sx_mul_two n]; ring
  unfold lsqDenom
  linear_combination 2 * (n : ℚ) * h2 - 3 * h3

lemma lsqDenom_pos {n : ℕ} (hn : 2 ≤ n) : 0 < lsqDenom n := by
  have h := lsqDenom_mul_twelve n
  have hn2 : (2 : ℚ) ≤ (n : ℚ) := by exact_mod_cast hn
  have h4 : (4 : ℚ) ≤ (n : ℚ) ^ 2 := by nlinarith
  have h12 : (12 : ℚ) ≤ (n : ℚ) ^ 2 * ((n : ℚ) ^ 2 - 1) := by nlinarith
  linarith

lemma sum_sub_affine (ys : List ℚ) (a b : ℚ) :
    ∑ i ∈ Finset.range ys.length, (ys.getD i 0 - (a * (i : ℚ) + b)) =
      Sy ys - a * Sx ys.length - b * (ys.length : ℚ) := by
  unfold Sy Sx
  rw [Finset.sum_sub_distrib, Finset.sum_add_distrib, ← Finset.mul_sum,
    Finset.sum_const, Finset.card_range, nsmul_eq_mul]
  ring

lemma sum_idx_sub_affine (ys : List ℚ) (a b : ℚ) :
    ∑ i ∈ Finset.range ys.length, (i : ℚ) * (ys.getD i 0 - (a * (i : ℚ) + b)) =
      Sxy ys - a * Sxx ys.length - b * Sx ys.length := by
  unfold Sxy Sxx Sx
  rw [Finset.mul_sum, Finset.mul_sum]
  rw [← Finset.sum_sub_distrib, ← Finset.sum_sub_distrib]
  exact Finset.sum_congr rfl (fun i _ => by ring)

lemma SSE_decomp (ys : List ℚ) (m c a b : ℚ) :
    SSE ys a b = SSE ys m c
      + (∑ i ∈ Finset.range ys.length, ((m - a) * (i : ℚ) + (c - b)) ^ 2)
      + 2 * (m - a) * (Sxy ys - m * Sxx ys.length - c * Sx ys.length)
      + 2 * (c - b) * (Sy ys - m * Sx ys.length - c * (ys.length : ℚ)) := by
  rw [← sum_idx_sub_affine ys m c, ← sum_sub_affine ys m c]
  unfold SSE
  rw [Finset.mul_sum, Finset.mul_sum]
  rw [← Finset.sum_add_distrib, ← Finset.sum_add_distrib, ← Finset.sum_add_distrib]
  exact Finset.sum_congr rfl (fun i _ => by ring)

lemma normalEq_const (ys : List ℚ) (hn : 1 ≤ ys.length) :
    Sy ys - polyfitSlope ys * Sx ys.length - cFit ys * (ys.length : ℚ) = 0 := by
  have hn0 : ((ys.length : ℚ)) ≠ 0 := by
    have : (0 : ℚ) < (ys.length : ℚ) := by exact_mod_cast hn
    exact this.ne'
  unfold cFit
  field_simp

lemma normalEq_idx (ys : List ℚ) (hn : 2 ≤ ys.length) :
    Sxy ys - polyfitSlope ys * Sxx ys.length - cFit ys * Sx ys.length = 0 := by
  have hD : lsqDenom ys.length ≠ 0 := (lsqDenom_pos hn).ne'
  have hn0 : ((ys.length : ℚ)) ≠ 0 := by
    have : (0 : ℚ) < (ys.length : ℚ) := by
      exact_mod_cast lt_of_lt_of_le (by norm_num) hn
    exact this.ne'
  unfold cFit polyfitSlope
  unfold lsqDenom at hD ⊢
  field_simp
  ring

/-- For two or more scores, the slope computed by the source's
`np.polyfit` call minimizes the sum of squared errors over all affine
models of score against 0-based index. -/
theorem polyfit_minimizes (ys : List ℚ) (hn : 2 ≤ ys.length) (a b : ℚ) :
    SSE ys (polyfitSlope ys) (cFit ys) ≤ SSE ys a b := by
  have hd := SSE_decomp ys (polyfitSlope ys) (cFit ys) a b
  rw [normalEq_idx ys hn, normalEq_const ys (le_trans one_le_two hn)] at hd
  have hS : 0 ≤ ∑ i ∈ Finset.range ys.length,
      ((polyfitSlope ys - a) * (i : ℚ) + (cFit ys - b)) ^ 2 :=
    Finset.sum_nonneg (fun i _ => sq_nonneg _)
  linarith [hd, hS]

/-- For two or more scores the least-squares slope is unique: any affine
model whose error does not exceed the fitted one has the fitted slope. -/
theorem polyfit_slope_unique (ys : List ℚ) (hn : 2 ≤ ys.length) (a b : ℚ)
    (hle : SSE ys a b ≤ SSE ys (polyfitSlope ys) (cFit ys)) : a = polyfitSlope ys := by
  have hd := SSE_decomp ys (polyfitSlope ys) (cFit ys) a b
  rw [normalEq_idx ys hn, normalEq_const ys (le_trans one_le_two hn)] at hd
  have hS : 0 ≤ ∑ i ∈ Finset.range ys.length,
      ((polyfitSlope ys - a) * (i : ℚ) + (cFit ys - b)) ^ 2 :=
    Finset.sum_nonneg (fun i _ => sq_nonneg _)
  have hS0 : ∑ i ∈ Finset.range ys.length,
      ((polyfitSlope ys - a) * (i : ℚ) + (cFit ys - b)) ^ 2 = 0 := by
    linarith [hd, hS, hle]
  have hall : ∀ i ∈ Finset.range ys.length,
      ((polyfitSlope ys - a) * (i : ℚ) + (cFit ys - b)) ^ 2 = 0 :=
    (Finset.sum_eq_zero_iff_of_nonneg (fun i _ => sq_nonneg _)).mp hS0
  have h0 : ((polyfitSlope ys - a) * ((0 : ℕ) : ℚ) + (cFit ys - b)) ^ 2 = 0 :=
    hall 0 (Finset.mem_range.mpr (by omega))
  have h1 : ((polyfitSlope ys - a) * ((1 : ℕ) : ℚ) + (cFit ys - b)) ^ 2 = 0 :=
    hall 1 (Finset.mem_range.mpr (by omega))
  have h0e : cFit ys - b = 0 := by
    have := sq_eq_zero_iff.mp h0
    push_cast at this
    linarith
  have h1e : polyfitSlope ys - a = 0 := by
    have := sq_eq_zero_iff.mp h1
    push_cast at this
    linarith
  linarith

end LeastSquaresLemmas

section TrendEvaluation

lemma analyze_nil (ds : List String) :
    analyze_health_trends [] ds = Except.error PyErr.typeError := by
  simp [analyze_health_trends, np_polyfit_slope]

lemma analyze_single (y : ℚ) (dates : List String) :
    analyze_health_trends [y] dates = Except.error PyErr.linAlgError := by
  simp [analyze_health_trends, np_polyfit_slope]

lemma np_polyfit_slope_ok {ys : List ℚ} (h2 : 2 ≤ ys.length) :
    np_polyfit_slope ys = Except.ok (polyfitSlope ys) := by
  unfold np_polyfit_slope
  rw [if_neg (by omega), if_neg (by omega)]

end TrendEvaluation

/-- Claim C3, counterexample: the two below-length-2 inputs fail with
two different numpy-internal errors — the empty sequence with the
`TypeError` from polyfit's emptiness check, the single observation with
the `LinAlgError` from the NaN-poisoned rescaled `lstsq` — so no single
deliberate insufficient-data error is raised for every sequence of
length < 2; the source has no such validation at all. -/
theorem C3_counterexample :
    analyze_health_trends [] ["d0"] = Except.error PyErr.typeError ∧
    analyze_health_trends [1 / 2] ["d0"] = Except.error PyErr.linAlgError ∧
    PyErr.typeError ≠ PyErr.linAlgError :=
  ⟨analyze_nil ["d0"], analyze_single (1 / 2) ["d0"], by decide⟩

/-- Claim C3, amended: `analyze_health_trends` contains no length
validation and no insufficient-data error.  Sequences of length < 2 do
fail, but each in a different accidental way inside numpy: the empty
sequence with the `TypeError` of polyfit's emptiness check, a single
observation with the `LinAlgError` from `lstsq` after polyfit's
column rescale divides the zero x-column norm by itself (no deliberate
check decides either case); every sequence of length ≥ 2 succeeds and
raises nothing. -/
theorem C3_amended (y : ℚ) (dates : List String) (ys : List ℚ) (ds : List String) :
    analyze_health_trends [] ds = Except.error PyErr.typeError ∧
    analyze_health_trends [y] dates = Except.error PyErr.linAlgError ∧
    exceptOk (analyze_health_trends ys ds) = decide (2 ≤ ys.length) := by
  refine ⟨analyze_nil ds, analyze_single y dates, ?_⟩
  match ys with
  | [] => simp [analyze_nil, exceptOk]
  | [y] => simp [analyze_single, exceptOk]
  | y :: z :: tl =>
    have h2 : 2 ≤ (y :: z :: tl).length := by simp
    rw [analyze_health_trends, np_polyfit_slope_ok h2]
    simp [exceptOk, h2]

/-- Claim C5, confirmed: for every sequence of at least two scores the
returned `trend_rate` is the least-squares slope of score against
0-based index — it minimizes the sum of squared errors for some
intercept, and uniquely so — and the direction is `improving` exactly
when that slope is positive, `declining` exactly when it is ≤ 0 (a zero
slope is classified declining). -/
theorem C5_theorem (scores : List ℚ) (dates : List String) (h2 : 2 ≤ scores.length) :
    ∃ rep, analyze_health_trends scores dates = Except.ok rep ∧
      (∃ c, (∀ a b, SSE scores rep.trend_rate c ≤ SSE scores a b) ∧
            (∀ a b, SSE scores a b ≤ SSE scores rep.trend_rate c → a = rep.trend_rate)) ∧
      ((rep.trend = "improving") ↔ 0 < rep.trend_rate) ∧
      ((rep.trend = "declining") ↔ rep.trend_rate ≤ 0) := by
  refine ⟨_, by rw [analyze_health_trends, np_polyfit_slope_ok h2], ?_, ?_, ?_⟩
  · exact ⟨cFit scores, polyfit_minimizes scores h2,
      polyfit_slope_unique scores h2⟩
  · by_cases hs : 0 < polyfitSlope scores <;> simp [hs]
  · by_cases hs : 0 < polyfitSlope scores
    · rw [if_pos hs]
      constructor
      · intro h; simp at h
      · intro h; exact absurd hs (not_lt.mpr h)
    · rw [if_neg hs]
      simp [le_of_not_lt hs]

/-- Witness for claim C5 at the concrete score sequence `[0, 1]`. -/
theorem C5_witness :
    2 ≤ ([0, 1] : List ℚ).length ∧
      (∃ rep, analyze_health_trends [0, 1] [] = Except.ok rep ∧
        (∃ c, (∀ a b, SSE [0, 1] rep.trend_rate c ≤ SSE [0, 1] a b) ∧
              (∀ a b, SSE [0, 1] a b ≤ SSE [0, 1] rep.trend_rate c → a = rep.trend_rate)) ∧
        ((rep.trend = "improving") ↔ 0 < rep.trend_rate) ∧
        ((rep.trend = "declining") ↔ rep.trend_rate ≤ 0)) :=
  ⟨by decide, C5_theorem [0, 1] [] (by decide)⟩

section AnomalyLemmas

lemma filterMap_if_eq_filter_map {α β : Type} (p : α → Prop) [DecidablePred p]
    (g : α → β) (l : List α) :
    (l.filterMap fun x => if p x then some (g x) else none) =
      (l.filter fun x => decide (p x)).map g := by
  induction l with
  | nil => rfl
  | cons x xs ih =>
    by_cases h : p x <;> simp [List.filterMap_cons, List.filter_cons, h, ih]

lemma pop_std_eq_np_std (l : List ℚ) : population_standard_deviation l = np_std l := by
  simp [population_standard_deviation, np_std, listMean]

lemma anomaly_threshold_spec (scores : List ℚ) :
    anomaly_threshold scores =
      ((listMean scores : ℚ) : ℝ) - 2 * population_standard_deviation scores := by
  rw [pop_std_eq_np_std]
  rfl

end AnomalyLemmas

/-- Claim C6, confirmed: the anomaly list is exactly the sequence, in
original input order, of the observations whose score is strictly below
`mean - 2 * population standard deviation`, each tagged high when the
score is also below `threshold * 0.8` and medium otherwise. -/
theorem C6_theorem (scores : List ℚ) (dates : List String)
    (h : scores.length ≤ dates.length) :
    anomaliesOf scores dates =
      ((List.range scores.length).filter
        (fun i => decide ((scores.getD i 0 : ℝ) <
          ((listMean scores : ℚ) : ℝ) - 2 * population_standard_deviation scores))).map
        (fun i =>
          { date := dates.getD i (""), score := scores.getD i 0,
            severity :=
              if (scores.getD i 0 : ℝ) <
                  (((listMean scores : ℚ) : ℝ) - 2 * population_standard_deviation scores) * (4 / 5)
                then "high" else "medium" }) := by
  simp only [← anomaly_threshold_spec]
  unfold anomaliesOf
  exact filterMap_if_eq_filter_map _ _ _

/-- Witness for claim C6 at the concrete observation sequence
`[0, 1]` with dates `["a", "b"]`. -/
theorem C6_witness :
    ([0, 1] : List ℚ).length ≤ (["a", "b"] : List String).length ∧
      anomaliesOf [0, 1] ["a", "b"] =
        ((List.range ([0, 1] : List ℚ).length).filter
          (fun i => decide ((([0, 1] : List ℚ).getD i 0 : ℝ) <
            ((listMean [0, 1] : ℚ) : ℝ) - 2 * population_standard_deviation [0, 1]))).map
          (fun i =>
            { date := (["a", "b"] : List String).getD i (""),
              score := ([0, 1] : List ℚ).getD i 0,
              severity :=
                if (([0, 1] : List ℚ).getD i 0 : ℝ) <
                    (((listMean [0, 1] : ℚ) : ℝ) -
                      2 * population_standard_deviation [0, 1]) * (4 / 5)
                  then "high" else "medium" }) :=
  ⟨by decide, C6_theorem [0, 1] ["a", "b"] (by decide)⟩

section RecommendationLemmas

lemma ite_append {α : Type} (c : Prop) [Decidable c] (X Y : List α) :
    (if c then X ++ Y else X) = X ++ (if c then Y else []) := by
  by_cases h : c <;> simp [h]

lemma foldl_intervention_eq (anoms : List Anomaly) (acc : List Recommendation) :
    anoms.foldl
      (fun acc a => if a.severity = "high" then acc ++ [interventionRec a.date] else acc) acc =
      acc ++ (anoms.filter (fun a => decide (a.severity = "high"))).map
        (fun a => interventionRec a.date) := by
  induction anoms generalizing acc with
  | nil => simp
  | cons a anoms ih =>
    by_cases h : a.severity = "high" <;>
      simp [List.filter_cons, h, ih]

end RecommendationLemmas

/-- Claim C7, confirmed: the recommendations are exactly, in generation
order: the high-priority irrigation recommendation when
`mean_health < 0.5`, then the medium-priority inspection recommendation
when the trend is declining with `|trend_rate| > 0.1`, then one
high-priority intervention recommendation per high-severity anomaly in
anomaly order, referencing that anomaly's date — and nothing else, so
medium-severity anomalies alone produce no recommendation. -/
theorem C7_theorem (analysis : TrendReport) :
    generate_recommendations analysis =
      (if analysis.mean_health < 1 / 2 then [irrigationRec] else []) ++
      (if analysis.trend = "declining" ∧ 1 / 10 < |analysis.trend_rate| then
        [inspectionRec] else []) ++
      (analysis.anomalies.filter (fun a => decide (a.severity = "high"))).map
        (fun a => interventionRec a.date) := by
  unfold generate_recommendations
  rw [foldl_intervention_eq]
  simp only [List.nil_append]
  rw [ite_append, List.append_assoc]

section FieldEvaluation

lemma preprocess_rasterA : preprocess_satellite_image rasterA = .ok [(0, 0)] := by
  simp [preprocess_satellite_image, rasterA, rawIndices, normalizeJoint, stackVals,
    listMin, listMax, normVal, ndvi, evi, ndviDenom, eviDenom, eps]

lemma preprocessAll_pair :
    preprocessAll [rasterA, rasterA] = .ok [[(0, 0)], [(0, 0)]] := by
  rw [preprocessAll, preprocess_rasterA, preprocessAll, preprocess_rasterA, preprocessAll]

lemma polyfitSlope_pair : polyfitSlope [2, 2] = 0 := by
  simp [polyfitSlope, Sxy, Sx, Sy, Sxx, lsqDenom, Finset.sum_range_succ]
  norm_num

lemma listMean_pair : listMean [2, 2] = 2 := by
  norm_num [listMean]

lemma np_std_pair : np_std [2, 2] = 0 := by
  rw [np_std, listMean_pair]
  norm_num [listMean]

lemma anomaliesOf_pair (dates : List String) : anomaliesOf [2, 2] dates = [] := by
  have hthr : anomaly_threshold [2, 2] = ((2 : ℚ) : ℝ) := by
    rw [anomaly_threshold, np_std_pair, listMean_pair]
    norm_num
  unfold anomaliesOf
  simp [hthr]
  intro a ha
  interval_cases a <;> norm_num

lemma analyze_pair (dates : List String) :
    analyze_health_trends [2, 2] dates = Except.ok ⟨2, "declining", 0, []⟩ := by
  rw [analyze_health_trends, np_polyfit_slope_ok (by norm_num)]
  simp [listMean_pair, polyfitSlope_pair, anomaliesOf_pair]

lemma recs_pair : generate_recommendations ⟨2, "declining", 0, []⟩ = [] := by
  simp [generate_recommendations]
  norm_num

lemma afh_pair :
    analyze_field_health [rasterA, rasterA] (fun _ => 2) ["a", "b"] =
      Except.ok ⟨[2, 2], ⟨2, "declining", 0, []⟩, []⟩ := by
  unfold analyze_field_health
  rw [preprocessAll_pair]
  simp only [List.map_cons, List.map_nil]
  rw [analyze_pair]
  simp only [recs_pair]

end FieldEvaluation

/-- Claim C8, counterexample: with an injected scorer that returns 2 for
every image, the out-of-range score 2 flows unmodified into the trend
analyzer (the resulting mean is 2) and into the output; no validation,
clamping, or warning exists anywhere in `analyze_field_health`. -/
theorem C8_counterexample :
    analyze_field_health [rasterA, rasterA] (fun _ => 2) ["a", "b"] =
      Except.ok ⟨[2, 2], ⟨2, "declining", 0, []⟩, []⟩ ∧ ¬ ((2 : ℚ) ≤ 1) :=
  ⟨afh_pair, by norm_num⟩

/-- Claim C8, amended: `analyze_field_health` passes the scorer outputs
to the trend analyzer entirely unchanged — no [0,1] validation, no
clamping, no warning: whenever preprocessing succeeds and the call
returns a result, its health scores are exactly the raw scorer outputs
and its analysis is the trend analysis of those raw scores. -/
theorem C8_amended (imagery : List Raster) (scorer : List (ℚ × ℚ) → ℚ)
    (dates : List String) (processed : List (List (ℚ × ℚ)))
    (h : preprocessAll imagery = Except.ok processed) (res : FieldResult)
    (hres : analyze_field_health imagery scorer dates = Except.ok res) :
    res.health_scores = processed.map scorer ∧
    analyze_health_trends (processed.map scorer) dates = Except.ok res.analysis ∧
    res.recommendations = generate_recommendations res.analysis := by
  unfold analyze_field_health at hres
  rw [h] at hres
  have hres2 : (match analyze_health_trends (processed.map scorer) dates with
      | .error e => (Except.error e : Except PyErr FieldResult)
      | .ok analysis =>
        Except.ok { health_scores := processed.map scorer, analysis := analysis,
                    recommendations := generate_recommendations analysis }) =
      Except.ok res := hres
  cases ha : analyze_health_trends (processed.map scorer) dates with
  | error e =>
    rw [ha] at hres2
    exact absurd hres2 (by simp)
  | ok a =>
    rw [ha] at hres2
    injection hres2 with h3
    subst h3
    exact ⟨rfl, rfl, rfl⟩

/-- Witness for the amended claim C8 at the concrete two-raster input
with the constant scorer 2. -/
theorem C8_witness :
    preprocessAll [rasterA, rasterA] = Except.ok [[(0, 0)], [(0, 0)]] ∧
    analyze_field_health [rasterA, rasterA] (fun _ => 2) ["a", "b"] =
      Except.ok ⟨[2, 2], ⟨2, "declining", 0, []⟩, []⟩ ∧
    (FieldResult.health_scores ⟨[2, 2], ⟨2, "declining", 0, []⟩, []⟩ =
        ([[((0 : ℚ), (0 : ℚ))], [((0 : ℚ), (0 : ℚ))]]).map (fun _ => (2 : ℚ)) ∧
      analyze_health_trends (([[((0 : ℚ), (0 : ℚ))], [((0 : ℚ), (0 : ℚ))]]).map (fun _ => (2 : ℚ)))
          ["a", "b"] =
        Except.ok (FieldResult.analysis ⟨[2, 2], ⟨2, "declining", 0, []⟩, []⟩) ∧
      FieldResult.recommendations ⟨[2, 2], ⟨2, "declining", 0, []⟩, []⟩ =
        generate_recommendations (FieldResult.analysis ⟨[2, 2], ⟨2, "declining", 0, []⟩, []⟩)) :=
  ⟨preprocessAll_pair, afh_pair,
    C8_amended [rasterA, rasterA] (fun _ => 2) ["a", "b"] [[(0, 0)], [(0, 0)]]
      preprocessAll_pair ⟨[2, 2], ⟨2, "declining", 0, []⟩, []⟩ afh_pair⟩

section ArgmaxLemmas

lemma np_argmax_cons_zero_iff (x : ℚ) (xs : List ℚ) :
    np_argmax (x :: xs) = 0 ↔
      ∀ j, j < (x :: xs).length → (x :: xs).getD j 0 ≤ x := by
  unfold np_argmax
  by_cases h : listMax (x :: xs) ≤ x
  · rw [if_pos h]
    simp only [true_iff, eq_self_iff_true]
    intro j hj
    have hmem : (x :: xs).getD j 0 ∈ x :: xs := by
      rw [List.getD_eq_getElem _ _ hj]
      exact List.getElem_mem _
    exact le_trans (le_listMax_of_mem hmem) h
  · rw [if_neg h]
    constructor
    · intro h0
      exact absurd h0 (Nat.succ_ne_zero _)
    · intro hall
      exfalso
      apply h
      obtain ⟨j, hj, hgj⟩ := List.mem_iff_getElem.mp (listMax_mem (List.cons_ne_nil x xs))
      have : (x :: xs).getD j 0 = listMax (x :: xs) := by
        rw [List.getD_eq_getElem _ _ hj, hgj]
      rw [← this]
      exact hall j hj

end ArgmaxLemmas

/-- Claim C9, counterexample: when the healthy label wins the argmax,
the returned disease string is the capitalized `"None"` of source line
165, not the lowercase `"none"` the claim asserts. -/
theorem C9_counterexample :
    np_argmax [1, 0, 0, 0, 0, 0] = 0 ∧
    (detect_crop_disease [1, 0, 0, 0, 0, 0] (fun _ => 0)).disease_detected = false ∧
    (detect_crop_disease [1, 0, 0, 0, 0, 0] (fun _ => 0)).disease = "None" ∧
    (detect_crop_disease [1, 0, 0, 0, 0, 0] (fun _ => 0)).disease ≠ "none" := by
  have hmax : np_argmax [1, 0, 0, 0, 0, 0] = 0 := by
    unfold np_argmax
    rw [if_pos]
    norm_num [listMax, List.foldl, max_def]
  refine ⟨hmax, ?_, ?_, ?_⟩ <;>
    · unfold detect_crop_disease
      rw [hmax]
      simp

/-- Claim C9, amended: for every 6-entry classifier probability vector,
when index 0 (the healthy label) attains the maximum — equivalently, when
`np.argmax` is 0, numpy taking the first index on ties — the result is
`disease_detected = false`, `disease = "None"` (capitalized in the
source, not `"none"`), confidence = the probability of label 0, and no
severity or treatment field; otherwise `disease_detected = true`, the
disease is the argmax label, confidence is that label's probability,
and the treatment lookup is performed on that label. -/
theorem C9_amended (preds : List ℚ) (sev : ℕ → ℚ) (h6 : preds.length = 6) :
    (np_argmax preds = 0 ↔ ∀ j, j < preds.length → preds.getD j 0 ≤ preds.getD 0 0) ∧
    detect_crop_disease preds sev =
      (if np_argmax preds = 0 then
        { disease_detected := false, disease := "None", confidence := preds.getD 0 0,
          severity := none, treatment := none }
      else
        { disease_detected := true,
          disease := disease_classes.getD (np_argmax preds) (""),
          confidence := preds.getD (np_argmax preds) 0,
          severity := some (sev (np_argmax preds)),
          treatment := some (get_treatment_recommendation
            (disease_classes.getD (np_argmax preds) (""))) }) := by
  obtain ⟨x, xs, rfl⟩ : ∃ x xs, preds = x :: xs := by
    cases preds with
    | nil => simp at h6
    | cons x xs => exact ⟨x, xs, rfl⟩
  constructor
  · simpa using np_argmax_cons_zero_iff x xs
  · unfold detect_crop_disease
    by_cases h : np_argmax (x :: xs) = 0
    · rw [if_pos h, if_pos h, h]
    · rw [if_neg h, if_neg h]

/-- Witness for the amended claim C9 at a concrete probability vector
whose argmax is the bacterial-blight label. -/
theorem C9_witness :
    ([0, 1, 0, 0, 0, 0] : List ℚ).length = 6 ∧
      ((np_argmax [0, 1, 0, 0, 0, 0] = 0 ↔
        ∀ j, j < ([0, 1, 0, 0, 0, 0] : List ℚ).length →
          ([0, 1, 0, 0, 0, 0] : List ℚ).getD j 0 ≤ ([0, 1, 0, 0, 0, 0] : List ℚ).getD 0 0) ∧
      detect_crop_disease [0, 1, 0, 0, 0, 0] (fun _ => 0) =
        (if np_argmax [0, 1, 0, 0, 0, 0] = 0 then
          { disease_detected := false, disease := "None",
            confidence := ([0, 1, 0, 0, 0, 0] : List ℚ).getD 0 0,
            severity := none, treatment := none }
        else
          { disease_detected := true,
            disease := disease_classes.getD (np_argmax [0, 1, 0, 0, 0, 0]) (""),
            confidence := ([0, 1, 0, 0, 0, 0] : List ℚ).getD (np_argmax [0, 1, 0, 0, 0, 0]) 0,
            severity := some ((fun _ => (0 : ℚ)) (np_argmax [0, 1, 0, 0, 0, 0])),
            treatment := some (get_treatment_recommendation
              (disease_classes.getD (np_argmax [0, 1, 0, 0, 0, 0]) (""))) })) :=
  ⟨by decide, C9_amended [0, 1, 0, 0, 0, 0] (fun _ => 0) (by decide)⟩

/-- Claim C10, confirmed: the treatment table contains entries only for
bacterial blight and brown spot; every other disease name — including
the classifier's own labels leaf_blast, tungro and sheath_blight — maps
to the empty treatment plan, and the lookup is a total function (the
Python `dict.get(key, {})` never raises). -/
theorem C10_theorem (d : String) (h1 : d ≠ "bacterial_blight") (h2 : d ≠ "brown_spot") :
    get_treatment_recommendation d = [] ∧
    get_treatment_recommendation ("leaf_blast") = [] ∧
    get_treatment_recommendation ("tungro") = [] ∧
    get_treatment_recommendation ("sheath_blight") = [] ∧
    (∀ k v, (k, v) ∈ treatments → k = "bacterial_blight" ∨ k = "brown_spot") := by
  refine ⟨?_, by decide, by decide, by decide, ?_⟩
  · have hb1 : (d == "bacterial_blight") = false := beq_eq_false_iff_ne.mpr h1
    have hb2 : (d == "brown_spot") = false := beq_eq_false_iff_ne.mpr h2
    simp [get_treatment_recommendation, treatments, List.lookup, hb1, hb2]
  · intro k v hm
    simp only [treatments, List.mem_cons, List.mem_singleton, List.not_mem_nil,
      or_false] at hm
    rcases hm with hm | hm
    · exact Or.inl (congrArg Prod.fst hm)
    · exact Or.inr (congrArg Prod.fst hm)

/-- Witness for claim C10 at the concrete unknown disease name
`"leaf_blast"`. -/
theorem C10_witness :
    ("leaf_blast" ≠ "bacterial_blight") ∧ ("leaf_blast" ≠ "brown_spot") ∧
      (get_treatment_recommendation ("leaf_blast") = [] ∧
       get_treatment_recommendation ("leaf_blast") = [] ∧
       get_treatment_recommendation ("tungro") = [] ∧
       get_treatment_recommendation ("sheath_blight") = [] ∧
       (∀ k v, (k, v) ∈ treatments → k = "bacterial_blight" ∨ k = "brown_spot")) :=
  ⟨by decide, by decide, C10_theorem ("leaf_blast") (by decide) (by decide)⟩

/-- Claim C4 (code defect): at the finite pixel with bands
(blue, green, red, nir) = (2, 0, 0, 14) the EVI denominator
`nir + 6*red - 7.5*blue + 1` is exactly 0 — all quantities are exactly
representable floats — while the numerator `nir - red` is not, so the
float source divides by zero at line 38, producing an infinite EVI,
which the min-max normalization of line 44 then turns into NaN
(inf/inf): the output is not finite, violating the stated hard
invariant.  The NDVI denominator carries the protective `1e-8`; the EVI
denominator does not — the slip the claim exposes. -/
theorem C4_bug_evi_denominator :
    eviDenom (([2, 0, 0, 14] : List ℚ).getD 3 0) (([2, 0, 0, 14] : List ℚ).getD 2 0)
        (([2, 0, 0, 14] : List ℚ).getD 0 0) = 0 ∧
    (([2, 0, 0, 14] : List ℚ).getD 3 0) - (([2, 0, 0, 14] : List ℚ).getD 2 0) ≠ 0 ∧
    ndviDenom (([2, 0, 0, 14] : List ℚ).getD 3 0) (([2, 0, 0, 14] : List ℚ).getD 2 0) ≠ 0 := by
  norm_num [eviDenom, ndviDenom, eps]

example : ndvi 1 1 = 0 := by
  simp [ndvi, ndviDenom]


end CropHealth
